import Mathlib

/-! Shallow embedding of the batch dispatch and retry engine of the
`ai_test_assistant` repository: the greedy batcher and the group dispatcher of
`llm_chains/base_chain.py`, the retrying HTTP client of
`llm_wrappers/base_custom_model_llm.py`, the response parser of
`regressionanalyser/parser/output_parser.py`, and the screenshot-stripping
failure chain of `regressionanalyser/analyzer/failure_chain.py`.
Pure functions are translated directly; the thread pool is modelled by a
completion-order parameter writing into position-indexed slots; exceptions are
modelled with `Except` and explicit outcome types. -/

namespace BaseChain

variable {α β : Type}

/-- State of the greedy batching loop of `BaseChain._create_batched_items`
(`llm_chains/base_chain.py` lines 98-101): the Python locals `batches`,
`current_batch`, `current_char_count` and `dropped_items`. -/
structure BState (α : Type) where
  batches : List (List α)
  current : List α
  currentChars : Nat
  dropped : List α

/-- One iteration of the `for idx, item in enumerate(items)` loop of
`_create_batched_items` (lines 103-122). `sz item` models
`len(str(item))`. An item whose serialized size alone exceeds `maxChars` is
appended to `dropped_items` and skipped (`continue`); otherwise the current
batch is flushed first when it is non-empty and either adding the item would
exceed the character budget or it already holds `maxItems` items
(`len(current_batch) >= self.max_items_per_request`); finally the item is
appended to the current batch and the running character count is updated. -/
def batchStep (sz : α → Nat) (maxItems maxChars : Nat) (s : BState α)
    (item : α) : BState α :=
  let itemChars := sz item
  if maxChars < itemChars then
    { s with dropped := s.dropped ++ [item] }
  else
    let s' :=
      if s.current.length ≠ 0 ∧
          (maxChars < s.currentChars + itemChars ∨
            maxItems ≤ s.current.length) then
        { batches := s.batches ++ [s.current], current := [], currentChars := 0,
          dropped := s.dropped }
      else s
    { s' with current := s'.current ++ [item],
              currentChars := s'.currentChars + itemChars }

/-- Epilogue of `_create_batched_items` (lines 125-126):
`if current_batch: batches.append(current_batch)`. -/
def batchFinal (s : BState α) : BState α :=
  if s.current.length ≠ 0 then { s with batches := s.batches ++ [s.current] }
  else s

/-- Complete loop state of `_create_batched_items` after processing `items`,
starting from empty accumulators. -/
def createBatchedState (sz : α → Nat) (maxItems maxChars : Nat)
    (items : List α) : BState α :=
  batchFinal (items.foldl (batchStep sz maxItems maxChars)
    { batches := [], current := [], currentChars := 0, dropped := [] })

/-- `BaseChain._create_batched_items` (lines 93-136). The Python function
returns only the `batches` list (line 136); `dropped_items` stays local, it is
logged at lines 128-129 and discarded. -/
def create_batched_items (sz : α → Nat) (maxItems maxChars : Nat)
    (items : List α) : List (List α) :=
  (createBatchedState sz maxItems maxChars items).batches

/-- Items kept by one batching step: the flattened batches together with the
pending current batch grow by exactly the undersized items, and `dropped`
grows by exactly the oversized ones. -/
lemma batchStep_characterization (sz : α → Nat) (maxItems maxChars : Nat)
    (s : BState α) (item : α) :
    ((batchStep sz maxItems maxChars s item).batches.flatten ++
        (batchStep sz maxItems maxChars s item).current =
      (s.batches.flatten ++ s.current) ++
        if sz item ≤ maxChars then [item] else []) ∧
    ((batchStep sz maxItems maxChars s item).dropped =
      s.dropped ++ if maxChars < sz item then [item] else []) := by
  simp only [batchStep]
  by_cases h1 : maxChars < sz item
  · rw [if_pos h1]
    simp [Nat.not_le_of_lt h1, h1]
  · rw [if_neg h1]
    by_cases h3 : s.current.length ≠ 0 ∧
        (maxChars < s.currentChars + sz item ∨ maxItems ≤ s.current.length)
    · rw [if_pos h3]
      simp [Nat.le_of_not_lt h1, h1, List.flatten_append, List.append_assoc]
    · rw [if_neg h3]
      simp [Nat.le_of_not_lt h1, h1, List.append_assoc]

/-- Loop-level characterization: folding the batching step over `items`
appends the undersized items (in order) to the flattened kept items and the
oversized ones (in order) to `dropped`. -/
lemma foldl_batchStep_characterization (sz : α → Nat)
    (maxItems maxChars : Nat) (items : List α) (s : BState α) :
    ((items.foldl (batchStep sz maxItems maxChars) s).batches.flatten ++
        (items.foldl (batchStep sz maxItems maxChars) s).current =
      (s.batches.flatten ++ s.current) ++
        items.filter (fun i => decide (sz i ≤ maxChars))) ∧
    ((items.foldl (batchStep sz maxItems maxChars) s).dropped =
      s.dropped ++ items.filter (fun i => decide (maxChars < sz i))) := by
  induction items generalizing s with
  | nil => simp
  | cons x xs ih =>
    have hx := batchStep_characterization sz maxItems maxChars s x
    have hxs := ih (batchStep sz maxItems maxChars s x)
    constructor
    · rw [List.foldl_cons, hxs.1, hx.1]
      by_cases h : sz x ≤ maxChars
      · simp [h, List.append_assoc]
      · simp [h]
    · rw [List.foldl_cons, hxs.2, hx.2]
      by_cases h : maxChars < sz x
      · simp [h, Nat.not_le_of_lt h, List.append_assoc]
      · simp [h]

/-- The flattened emitted batches are exactly the undersized input items, in
input order. -/
lemma create_batched_items_join (sz : α → Nat) (maxItems maxChars : Nat)
    (items : List α) :
    (create_batched_items sz maxItems maxChars items).flatten =
      items.filter (fun i => decide (sz i ≤ maxChars)) := by
  unfold create_batched_items createBatchedState batchFinal
  have h := foldl_batchStep_characterization sz maxItems maxChars items
    { batches := [], current := [], currentChars := 0, dropped := [] }
  set t := items.foldl (batchStep sz maxItems maxChars)
    { batches := [], current := [], currentChars := 0, dropped := [] } with ht
  by_cases hc : t.current.length ≠ 0
  · simpa [hc, List.flatten_append] using h.1
  · have hcur : t.current = [] := by
      simpa using List.length_eq_zero.mp (by omega)
    simp only [hc, if_neg]
    simpa [hcur] using h.1

/-- The internal `dropped_items` list is exactly the oversized input items, in
input order. -/
lemma createBatchedState_dropped (sz : α → Nat) (maxItems maxChars : Nat)
    (items : List α) :
    (createBatchedState sz maxItems maxChars items).dropped =
      items.filter (fun i => decide (maxChars < sz i)) := by
  unfold createBatchedState batchFinal
  have h := foldl_batchStep_characterization sz maxItems maxChars items
    { batches := [], current := [], currentChars := 0, dropped := [] }
  set t := items.foldl (batchStep sz maxItems maxChars)
    { batches := [], current := [], currentChars := 0, dropped := [] } with ht
  by_cases hc : t.current.length ≠ 0
  · simpa [hc] using h.2
  · simp only [hc, if_neg]
    simpa using h.2

/-- A well-formed emitted batch: non-empty, within the item-count budget
`maxItems` and within the character budget `maxChars`. -/
def goodBatch (sz : α → Nat) (maxItems maxChars : Nat) (b : List α) : Prop :=
  b ≠ [] ∧ b.length ≤ maxItems ∧ (b.map sz).sum ≤ maxChars

/-- Loop invariant of `_create_batched_items`: every emitted batch is
well-formed, `current_char_count` tracks the serialized size of
`current_batch`, and the pending batch itself is within both budgets. -/
def BatchInv (sz : α → Nat) (maxItems maxChars : Nat) (s : BState α) : Prop :=
  (∀ b ∈ s.batches, goodBatch sz maxItems maxChars b) ∧
  s.currentChars = (s.current.map sz).sum ∧
  s.current.length ≤ maxItems ∧ (s.current.map sz).sum ≤ maxChars

lemma batchStep_inv (sz : α → Nat) (maxItems maxChars : Nat)
    (hItems : 1 ≤ maxItems) (s : BState α) (item : α)
    (h : BatchInv sz maxItems maxChars s) :
    BatchInv sz maxItems maxChars (batchStep sz maxItems maxChars s item) := by
  obtain ⟨hb, hchars, hlen, hsum⟩ := h
  simp only [batchStep]
  by_cases h1 : maxChars < sz item
  · rw [if_pos h1]
    exact ⟨hb, hchars, hlen, hsum⟩
  · rw [if_neg h1]
    by_cases h3 : s.current.length ≠ 0 ∧
        (maxChars < s.currentChars + sz item ∨ maxItems ≤ s.current.length)
    · rw [if_pos h3]
      refine ⟨?_, by simp, by simpa using hItems, ?_⟩
      · intro b hbmem
        rcases List.mem_append.mp hbmem with hmem | hmem
        · exact hb b hmem
        · have hbc : b = s.current := by simpa using hmem
          subst hbc
          refine ⟨?_, hlen, hsum⟩
          intro hnil
          exact h3.1 (by simp [hnil])
      · simpa using Nat.le_of_not_lt h1
    · rw [if_neg h3]
      rcases Decidable.em (s.current.length = 0) with hc0 | hc0
      · have hcur : s.current = [] := List.length_eq_zero.mp hc0
        refine ⟨hb, ?_, ?_, ?_⟩
        · simp [hcur, hchars]
        · simpa [hcur] using hItems
        · simpa [hcur] using Nat.le_of_not_lt h1
      · have hrest : ¬(maxChars < s.currentChars + sz item ∨
            maxItems ≤ s.current.length) := fun hor => h3 ⟨hc0, hor⟩
        have hchar2 : s.currentChars + sz item ≤ maxChars :=
          Nat.le_of_not_lt fun hlt => hrest (Or.inl hlt)
        have hlen2 : s.current.length < maxItems :=
          Nat.lt_of_not_le fun hle => hrest (Or.inr hle)
        refine ⟨hb, ?_, ?_, ?_⟩
        · simp [hchars]
        · simpa using hlen2
        · calc ((s.current ++ [item]).map sz).sum
              = s.currentChars + sz item := by simp [hchars]
            _ ≤ maxChars := hchar2

lemma foldl_batchStep_inv (sz : α → Nat) (maxItems maxChars : Nat)
    (hItems : 1 ≤ maxItems) (items : List α) (s : BState α)
    (h : BatchInv sz maxItems maxChars s) :
    BatchInv sz maxItems maxChars
      (items.foldl (batchStep sz maxItems maxChars) s) := by
  induction items generalizing s with
  | nil => exact h
  | cons x xs ih =>
    exact ih _ (batchStep_inv sz maxItems maxChars hItems s x h)

/-- Every batch emitted by `_create_batched_items` is non-empty and within
both budgets, provided the item-count budget is positive. -/
lemma create_batched_items_good (sz : α → Nat) (maxItems maxChars : Nat)
    (hItems : 1 ≤ maxItems) (items : List α) :
    ∀ b ∈ create_batched_items sz maxItems maxChars items,
      goodBatch sz maxItems maxChars b := by
  have hinv : BatchInv sz maxItems maxChars
      (items.foldl (batchStep sz maxItems maxChars)
        { batches := [], current := [], currentChars := 0, dropped := [] }) := by
    refine foldl_batchStep_inv sz maxItems maxChars hItems items _ ?_
    exact ⟨by simp, by simp, by simp, by simp⟩
  unfold create_batched_items createBatchedState batchFinal
  set t := items.foldl (batchStep sz maxItems maxChars)
    { batches := [], current := [], currentChars := 0, dropped := [] } with ht
  obtain ⟨hb, hchars, hlen, hsum⟩ := hinv
  by_cases hc : t.current.length ≠ 0
  · rw [if_pos hc]
    intro b hbmem
    rcases List.mem_append.mp hbmem with hmem | hmem
    · exact hb b hmem
    · have hbc : b = t.current := by simpa using hmem
      subst hbc
      exact ⟨fun hnil => hc (by simp [hnil]), hlen, hsum⟩
  · rw [if_neg hc]
    exact hb

/-- Successive slices `batch[i:i + batch_size]` taken by the
`for i in range(0, num_items, batch_size)` loops of `process_batch`
(lines 43-44) and `process_batched_items` (lines 72-73). For `n = 0` the
Python `range` call raises `ValueError`; the claims only concern positive
group sizes, and we return `[]` there to keep the function total. -/
def chunks (n : Nat) : List α → List (List α)
  | [] => []
  | x :: xs =>
    if n = 0 then [] else (x :: xs).take n :: chunks n ((x :: xs).drop n)
termination_by xs => xs.length
decreasing_by simp; omega

lemma chunks_flatten (n : Nat) (h : 1 ≤ n) (xs : List α) :
    (chunks n xs).flatten = xs := by
  have main : ∀ (k : Nat) (ys : List α), ys.length = k →
      (chunks n ys).flatten = ys := by
    intro k
    induction k using Nat.strong_induction_on with
    | _ k ih =>
      intro ys hk
      match ys with
      | [] => simp [chunks]
      | y :: ys' =>
        rw [chunks, if_neg (by omega)]
        have hdrop : ((y :: ys').drop n).length < k := by
          subst hk; simp; omega
        rw [List.flatten_cons, ih _ hdrop _ rfl, List.take_append_drop]
  exact main xs.length xs rfl

lemma chunks_of_length_le (n : Nat) (h : 1 ≤ n) (xs : List α)
    (hne : xs ≠ []) (hlen : xs.length ≤ n) : chunks n xs = [xs] := by
  match xs with
  | [] => exact absurd rfl hne
  | x :: xs' =>
    rw [chunks, if_neg (by omega), List.take_of_length_le hlen,
      List.drop_eq_nil_of_le hlen]
    simp [chunks]

/-- Thread-pool model for `list(executor.map(f, batch_items))`
(lines 48-49 and 77-78): each worker, when it completes, writes its result
into the slot of its input index; the map iterator then reads the slots in
index order. `order` is the sequence of indices in completion order; taking
it to be an arbitrary permutation of the indices models every concurrent
finishing schedule. -/
def runPool (f : α → β) (xs : List α) (order : List Nat) :
    List (Option β) :=
  order.foldl (fun slots i => slots.set i ((xs[i]?).map f))
    (List.replicate xs.length none)

/-- Results of one pool group, read back in input-index order. -/
def poolMap (f : α → β) (xs : List α) (order : List Nat) : List β :=
  (runPool f xs order).reduceOption

lemma foldl_set_length (g : Nat → Option β) (order : List Nat)
    (slots : List (Option β)) :
    (order.foldl (fun s i => s.set i (g i)) slots).length = slots.length := by
  induction order generalizing slots with
  | nil => rfl
  | cons i rest ih => simp [ih]

lemma foldl_set_getElem? (g : Nat → Option β) (order : List Nat)
    (slots : List (Option β)) (j : Nat) :
    (order.foldl (fun s i => s.set i (g i)) slots)[j]? =
      if j ∈ order ∧ j < slots.length then some (g j) else slots[j]? := by
  induction order generalizing slots with
  | nil => simp
  | cons i rest ih =>
    rw [List.foldl_cons, ih]
    by_cases hmem : j ∈ rest
    · by_cases hlt : j < slots.length
      · simp [hmem, hlt]
      · simp only [List.length_set, hmem, hlt, and_false, and_true, if_false,
          List.getElem?_set]
        have hjlen : slots[j]? = none := by
          rw [List.getElem?_eq_none]
          omega
        rw [hjlen]
        by_cases hij : i = j
        · subst hij
          simp [hlt]
        · simp [hij]
    · by_cases hij : i = j
      · subst hij
        by_cases hlt : i < slots.length
        · simp [hmem, hlt, List.getElem?_set]
        · have hjlen : slots[i]? = none := by
            rw [List.getElem?_eq_none]
            omega
          simp [hmem, hlt, List.getElem?_set, hjlen]
      · have : ¬ j ∈ i :: rest := by
          intro hj
          rcases List.mem_cons.mp hj with hj | hj
          · exact hij hj.symm
          · exact hmem hj
        simp [hmem, this, List.getElem?_set, hij]

lemma map_some_reduceOption (l : List β) : (l.map some).reduceOption = l := by
  induction l with
  | nil => rfl
  | cons x xs ih => simp [List.reduceOption_cons_of_some, ih]

/-- If the completion order is any permutation of the input indices, the pool
returns exactly `xs.map f`, in input order. -/
lemma poolMap_perm (f : α → β) (xs : List α) (order : List Nat)
    (hperm : order.Perm (List.range xs.length)) :
    poolMap f xs order = xs.map f := by
  have hmem : ∀ j, j ∈ order ↔ j < xs.length := by
    intro j
    rw [hperm.mem_iff, List.mem_range]
  have hrun : runPool f xs order = (xs.map f).map some := by
    apply List.ext_getElem?
    intro j
    unfold runPool
    rw [foldl_set_getElem?]
    by_cases hj : j < xs.length
    · simp [(hmem j).mpr hj, hj, List.getElem?_map, List.getElem?_eq_getElem hj]
    · have h1 : ¬ j ∈ order := fun hc => hj ((hmem j).mp hc)
      have h3 : xs[j]? = none := by
        rw [List.getElem?_eq_none]
        omega
      simp [h1, h3, List.getElem?_replicate, hj]
  rw [poolMap, hrun, map_some_reduceOption]

/-- Python-level exceptions escaping the embedded functions. -/
inductive PyExc : Type
  | attributeError : PyExc
  deriving DecidableEq, Repr

/-- The attribute lookup `self.delay_between_batches_s` performed by the
guard at line 52 of `base_chain.py`. The `BaseChain` pydantic model declares
`batch_size`, `max_items_per_request` and `delay_between_batches`
(lines 18-20) but no `delay_between_batches_s`, so the lookup finds no
attribute: `none` models the `AttributeError` the access raises. -/
def delayBetweenBatchesS : Option Nat := none

/-- The defaulted lookup `getattr(self, "delay_between_batches_s", 0)` in the
guard at line 85: the attribute is absent, so the default `0` is returned. -/
def delayBetweenBatchesSGetattr : Nat := delayBetweenBatchesS.getD 0

/-- Configuration fields of the `BaseChain` pydantic model (lines 18-20). -/
structure ChainConfig where
  batch_size : Nat := 25
  max_items_per_request : Nat := 5
  delay_between_batches : Nat := 60

/-- Group loop of `BaseChain.process_batch` (lines 43-54). `f` is
`self.process_single`, `orders k` the completion order of the pool for group
`k`. Results of each group extend `all_results` (line 50); then, when
further groups remain (`batch_num < num_batches`), the guard at line 52
evaluates `self.delay_between_batches_s`, and the lookup raises
`AttributeError`. -/
def processGroups (f : α → β) (orders : Nat → List Nat) :
    Nat → List (List α) → Except PyExc (List β)
  | _, [] => Except.ok []
  | k, [grp] => Except.ok (poolMap f grp (orders k))
  | k, grp :: grp' :: grps =>
    match delayBetweenBatchesS with
    | none => Except.error PyExc.attributeError
    | some d =>
      (processGroups f orders (k + 1) (grp' :: grps)).map
        (fun rs => poolMap f grp (orders k) ++ rs)

/-- `BaseChain.process_batch` (lines 36-58): per-item mode. -/
def process_batch (f : α → β) (cfg : ChainConfig)
    (orders : Nat → List Nat) (items : List α) : Except PyExc (List β) :=
  processGroups f orders 0 (chunks cfg.batch_size items)

/-- Group loop of `BaseChain.process_batched_items` (lines 72-87). `g` is
`self._process_single_token_batch` (one LLM request for a whole sub-batch,
returning the parsed result list, extended into `results` by lines 79-83; the
`isinstance(batch_result, list)` branch is taken since the call returns a
list). The second component collects the `time.sleep` durations performed
between groups: the guard at line 85 reads
`getattr(self, "delay_between_batches_s", 0)` and would sleep
`self.delay_between_batches` (line 87). -/
def processTokenGroups (g : List α → List β) (delayBetween : Nat)
    (orders : Nat → List Nat) :
    Nat → List (List (List α)) → List β × List Nat
  | _, [] => ([], [])
  | k, [grp] => ((poolMap g grp (orders k)).flatten, [])
  | k, grp :: grp' :: grps =>
    let rs := (poolMap g grp (orders k)).flatten
    let sleeps := if 0 < delayBetweenBatchesSGetattr then [delayBetween] else []
    let rest := processTokenGroups g delayBetween orders (k + 1) (grp' :: grps)
    (rs ++ rest.1, sleeps ++ rest.2)

/-- `BaseChain.process_batched_items` (lines 60-91): per-batch mode. -/
def process_batched_items (g : List α → List β) (cfg : ChainConfig)
    (sz : α → Nat) (orders : Nat → List Nat) (items : List α)
    (maxChars : Nat) : List β × List Nat :=
  let batches := create_batched_items sz cfg.max_items_per_request maxChars items
  processTokenGroups g cfg.delay_between_batches orders 0
    (chunks cfg.batch_size batches)

lemma processTokenGroups_sleeps (g : List α → List β) (d : Nat)
    (orders : Nat → List Nat) :
    ∀ (k : Nat) (gs : List (List (List α))),
      (processTokenGroups g d orders k gs).2 = [] := by
  intro k gs
  induction gs generalizing k with
  | nil => rfl
  | cons grp rest ih =>
    match rest with
    | [] => rfl
    | grp' :: grps =>
      simp only [processTokenGroups]
      rw [ih (k + 1)]
      simp [delayBetweenBatchesSGetattr, delayBetweenBatchesS]

lemma processTokenGroups_results (g : List α → List β) (d : Nat)
    (orders : Nat → List Nat) :
    ∀ (k : Nat) (gs : List (List (List α))),
      (∀ j, ∀ hj : j < gs.length,
        (orders (k + j)).Perm (List.range (gs.get ⟨j, hj⟩).length)) →
      (processTokenGroups g d orders k gs).1 =
        ((gs.flatten).map g).flatten := by
  intro k gs
  induction gs generalizing k with
  | nil => intro _; rfl
  | cons grp rest ih =>
    intro h
    have h0 : (orders k).Perm (List.range grp.length) := by
      simpa using h 0 (by simp)
    have hrest : ∀ j, ∀ hj : j < rest.length,
        (orders (k + 1 + j)).Perm (List.range (rest.get ⟨j, hj⟩).length) := by
      intro j hj
      have hkj : k + 1 + j = k + (j + 1) := by omega
      rw [hkj]
      simpa using h (j + 1) (by simpa using Nat.succ_lt_succ hj)
    match rest with
    | [] =>
      simp only [processTokenGroups]
      rw [poolMap_perm g grp (orders k) h0]
      simp
    | grp' :: grps =>
      simp only [processTokenGroups]
      rw [ih (k + 1) hrest, poolMap_perm g grp (orders k) h0]
      simp

end BaseChain

namespace CustomModelLLM

/-- Outcome of one `requests.post` round trip inside
`BaseCustomModelLLM._process_prompt` (`llm_wrappers/base_custom_model_llm.py`
lines 74-109), classified the way its `try/except` arms see it: a 2xx
response parsed to text, an `HTTPError` with its status code raised by
`response.raise_for_status()`, a `RequestException` (timeout, connection
failure), or any other exception. -/
inductive AttemptOutcome : Type
  | success : String → AttemptOutcome
  | http : Nat → AttemptOutcome
  | transport : AttemptOutcome
  | other : AttemptOutcome
  deriving DecidableEq, Repr

/-- Result of `_process_prompt`: either the parsed response text or the
exception escaping the retry loop. `connectionError` is the
`ConnectionError` raised at line 112 when the loop exhausts without
returning. -/
inductive PromptResult : Type
  | ok : String → PromptResult
  | httpError : Nat → PromptResult
  | transportError : PromptResult
  | otherError : PromptResult
  | connectionError : PromptResult
  deriving DecidableEq, Repr

/-- The `for attempt in range(self.max_retries)` loop of `_process_prompt`
(lines 74-112), with the list of `time.sleep` durations performed so far.
`responses attempt` is the outcome of the request of that attempt. HTTP 429
with attempts remaining sleeps `30 ** attempt` seconds (lines 90-94) and
retries; any other `HTTPError` re-raises (line 98); a `RequestException`
with attempts remaining sleeps 1 second (line 103) and retries, otherwise
re-raises (line 105); any other exception re-raises (line 109); exhausting
the loop raises `ConnectionError` (line 112). -/
def processPromptAux (responses : Nat → AttemptOutcome) (maxRetries : Nat) :
    Nat → List Nat → PromptResult × List Nat
  | attempt, sleeps =>
    if h : maxRetries ≤ attempt then (PromptResult.connectionError, sleeps)
    else
      match responses attempt with
      | AttemptOutcome.success t => (PromptResult.ok t, sleeps)
      | AttemptOutcome.http status =>
        if status = 429 ∧ attempt < maxRetries - 1 then
          processPromptAux responses maxRetries (attempt + 1)
            (sleeps ++ [30 ^ attempt])
        else (PromptResult.httpError status, sleeps)
      | AttemptOutcome.transport =>
        if attempt < maxRetries - 1 then
          processPromptAux responses maxRetries (attempt + 1) (sleeps ++ [1])
        else (PromptResult.transportError, sleeps)
      | AttemptOutcome.other => (PromptResult.otherError, sleeps)
termination_by attempt _ => maxRetries - attempt
decreasing_by
  · omega
  · omega

/-- `BaseCustomModelLLM._process_prompt` (lines 70-112), returning the result
together with the sleeps performed. -/
def process_prompt (responses : Nat → AttemptOutcome) (maxRetries : Nat) :
    PromptResult × List Nat :=
  processPromptAux responses maxRetries 0 []

/-- A `Generation` appended by `BaseCustomModelLLM._generate` (lines 56-67):
either `Generation(text=text)` from a successful `_process_prompt`, or the
error-marker generation `Generation(text=f"[ERROR: {str(e)}]")` built by the
`except` arm at lines 62-66 from the caught exception. -/
inductive Gen : Type
  | text : String → Gen
  | errMarker : PromptResult → Gen
  deriving DecidableEq, Repr

/-- One iteration of the `for prompt in prompts` loop of `_generate`: the
`try/except Exception` catches every exception `_process_prompt` raises and
degrades it to an error-marker generation. -/
def generateOne (responses : Nat → AttemptOutcome) (maxRetries : Nat) : Gen :=
  match (process_prompt responses maxRetries).1 with
  | PromptResult.ok t => Gen.text t
  | e => Gen.errMarker e

/-- `BaseCustomModelLLM._generate` (lines 44-68): one generation per prompt,
in prompt order. `env p` gives the attempt outcomes of prompt `p`. -/
def generate (env : String → Nat → AttemptOutcome) (maxRetries : Nat)
    (prompts : List String) : List Gen :=
  prompts.map (fun p => generateOne (env p) maxRetries)

/-- When every attempt fails with a transport error, the loop retries with a
1-second sleep after each non-final attempt and raises the transport error
out of the final one. -/
lemma processPromptAux_transport (responses : Nat → AttemptOutcome)
    (maxRetries : Nat) (h : ∀ a, responses a = AttemptOutcome.transport) :
    ∀ (attempt : Nat) (sleeps : List Nat), attempt < maxRetries →
      processPromptAux responses maxRetries attempt sleeps =
        (PromptResult.transportError,
          sleeps ++ List.replicate (maxRetries - 1 - attempt) 1) := by
  have main : ∀ (k attempt : Nat) (sleeps : List Nat),
      maxRetries - attempt = k → attempt < maxRetries →
      processPromptAux responses maxRetries attempt sleeps =
        (PromptResult.transportError,
          sleeps ++ List.replicate (maxRetries - 1 - attempt) 1) := by
    intro k
    induction k using Nat.strong_induction_on with
    | _ k ih =>
      intro attempt sleeps hk hlt
      rw [processPromptAux, dif_neg (by omega), h attempt]
      by_cases hfin : attempt < maxRetries - 1
      · rw [if_pos hfin,
          ih (maxRetries - (attempt + 1)) (by omega) (attempt + 1)
            (sleeps ++ [1]) rfl (by omega)]
        have hrep : maxRetries - 1 - attempt =
            (maxRetries - 1 - (attempt + 1)) + 1 := by omega
        rw [hrep]
        simp [List.replicate_succ, List.append_assoc]
      · rw [if_neg hfin]
        have hrep : maxRetries - 1 - attempt = 0 := by omega
        simp [hrep]
  intro attempt sleeps hlt
  exact main (maxRetries - attempt) attempt sleeps rfl hlt

end CustomModelLLM

namespace OutputParser

/-- JSON values as produced by `json.loads` in `CustomOutputParser.parse_result`
(`regressionanalyser/parser/output_parser.py` line 47). -/
inductive JValue : Type
  | null : JValue
  | boolean : Bool → JValue
  | num : Int → JValue
  | str : String → JValue
  | arr : List JValue → JValue
  | obj : List (String × JValue) → JValue

/-- The `FailureAnalysisResult` pydantic model (`output_parser.py`
lines 9-23): ten required fields, eight strings and two lists of strings. -/
structure FailureAnalysisResult where
  detailed_reason : String
  error_message : String
  squad_name : String
  possible_causes : List String
  recommended_fixes : List String
  feature_name : String
  scenario_name : String
  step_details : String
  file_path : String
  line_number : String
  deriving DecidableEq, Repr

/-- Field lookup in a decoded JSON object. -/
def getField (fs : List (String × JValue)) (k : String) : Option JValue :=
  (fs.find? (fun p => p.1 == k)).map (fun p => p.2)

/-- A JSON value accepted for a pydantic `str` field. -/
def asStr : JValue → Option String
  | JValue.str s => some s
  | _ => none

/-- Strings collected from a decoded JSON array, failing on the first
non-string element. -/
def asStrAll : List JValue → Option (List String)
  | [] => some []
  | x :: xs =>
    match asStr x, asStrAll xs with
    | some s, some ss => some (s :: ss)
    | _, _ => none

/-- A JSON value accepted for a pydantic `List[str]` field. -/
def asStrList : JValue → Option (List String)
  | JValue.arr xs => asStrAll xs
  | _ => none

/-- `FailureAnalysisResult.model_validate(item)` (lines 51 and 54): succeeds
exactly when the value is an object carrying every required field with the
required type (extra keys are ignored, pydantic's default); `none` models the
`pydantic.ValidationError` it raises otherwise. -/
def model_validate (v : JValue) : Option FailureAnalysisResult :=
  match v with
  | JValue.obj fs => do
    let detailed_reason ← getField fs "detailed_reason" >>= asStr
    let error_message ← getField fs "error_message" >>= asStr
    let squad_name ← getField fs "squad_name" >>= asStr
    let possible_causes ← getField fs "possible_causes" >>= asStrList
    let recommended_fixes ← getField fs "recommended_fixes" >>= asStrList
    let feature_name ← getField fs "feature_name" >>= asStr
    let scenario_name ← getField fs "scenario_name" >>= asStr
    let step_details ← getField fs "step_details" >>= asStr
    let file_path ← getField fs "file_path" >>= asStr
    let line_number ← getField fs "line_number" >>= asStr
    pure { detailed_reason := detailed_reason, error_message := error_message,
           squad_name := squad_name, possible_causes := possible_causes,
           recommended_fixes := recommended_fixes, feature_name := feature_name,
           scenario_name := scenario_name, step_details := step_details,
           file_path := file_path, line_number := line_number }
  | _ => none

/-- Outcome of `CustomOutputParser.parse_result` (lines 34-60) on a decoded
value. `results` is a normal return. `uncaughtValidation` models the
`pydantic.ValidationError` raised by `model_validate`: line 1 imports
`ValidationError` from `jsonschema`, not from `pydantic`, so the `except`
clause at line 56 does not catch it and it escapes the call.
`uncaughtName` models the `NameError` raised by line 55,
`return alidated_item`: the name `alidated_item` is undefined (line 54 bound
`validated_item`), and `NameError` is likewise not caught at line 56. -/
inductive ParseOutcome : Type
  | results : List FailureAnalysisResult → ParseOutcome
  | uncaughtValidation : ParseOutcome
  | uncaughtName : ParseOutcome
  deriving DecidableEq, Repr

/-- The list comprehension at line 51,
`[self.pydantic_object.model_validate(item) for item in parsed_data]`: the
first element whose validation raises aborts the whole comprehension. -/
def validate_list : List JValue → Option (List FailureAnalysisResult)
  | [] => some []
  | x :: xs =>
    match model_validate x, validate_list xs with
    | some r, some rs => some (r :: rs)
    | _, _ => none

/-- Body of `parse_result` after `json.loads` succeeded on the fence-stripped
text (lines 47-55), on the decoded value `v`. A decoded list is validated by
the comprehension at line 51, which aborts on the first invalid element; a
decoded non-list is validated once (line 54) and then line 55 returns the
undefined name `alidated_item`. -/
def parse_result_decoded (v : JValue) : ParseOutcome :=
  match v with
  | JValue.arr xs =>
    match validate_list xs with
    | some rs => ParseOutcome.results rs
    | none => ParseOutcome.uncaughtValidation
  | _ =>
    match model_validate v with
    | some _ => ParseOutcome.uncaughtName
    | none => ParseOutcome.uncaughtValidation

lemma validate_list_eq_none_of_mem {xs : List JValue} {x : JValue}
    (hx : x ∈ xs) (h : model_validate x = none) :
    validate_list xs = none := by
  induction xs with
  | nil => cases hx
  | cons y ys ih =>
    rcases List.mem_cons.mp hx with hxy | hxy
    · subst hxy
      simp [validate_list, h]
    · rw [validate_list, ih hxy]
      cases model_validate y <;> rfl

lemma validate_list_eq_some_of_all {xs : List JValue}
    (h : ∀ x ∈ xs, (model_validate x).isSome) :
    validate_list xs = some (xs.filterMap model_validate) := by
  induction xs with
  | nil => rfl
  | cons y ys ih =>
    have hy := h y (List.mem_cons_self y ys)
    cases hvy : model_validate y with
    | none => rw [hvy] at hy; cases hy
    | some a =>
      rw [validate_list, hvy,
        ih (fun x hx => h x (List.mem_cons_of_mem y hx))]
      simp [List.filterMap_cons, hvy]

end OutputParser

namespace FailureChain

/-- A caller-provided failure item of
`regressionanalyser/analyzer/failure_chain.py`: an ordered mapping of field
names to values (the Python `Dict[str, Any]`; string-valued fields, including
a base64 screenshot attachment, suffice for the claims). -/
abbrev Item : Type := List (String × String)

/-- The dict comprehension
`{k: v for k, v in item.items() if k != "screenshot"}` used at lines 12, 20
and 28 of `failure_chain.py`: a fresh mapping holding every entry of the
original except the screenshot. -/
def stripScreenshot (item : Item) : Item :=
  item.filter (fun kv => !(kv.1 == "screenshot"))

/-- `FailureChain.process_batched_items` (lines 24-29): screenshots are
removed from every failure first, and the stripped copies are what
`BaseChain.process_batched_items` batches against the character budget and
forwards. -/
def process_batched_items (g : List Item → List β)
    (cfg : BaseChain.ChainConfig) (sz : Item → Nat)
    (orders : Nat → List Nat) (items : List Item) (maxChars : Nat) :
    List β × List Nat :=
  BaseChain.process_batched_items g cfg sz orders
    (items.map stripScreenshot) maxChars

/-- API-mode branch of `FailureChain._prepare_llm_input` (lines 18-22): the
items interpolated into the multi-item prompt payload are the stripped
copies `failures_for_prompt`. -/
def prepare_llm_input_api (failures : List Item) : List Item :=
  failures.map stripScreenshot

lemma stripScreenshot_lookup_self (item : Item) :
    (stripScreenshot item).lookup "screenshot" = none := by
  induction item with
  | nil => rfl
  | cons kv rest ih =>
    obtain ⟨k, v⟩ := kv
    by_cases hk : k = "screenshot"
    · simpa [stripScreenshot, List.filter_cons, hk] using ih
    · have hb : (k == "screenshot") = false := by
        simpa using hk
      have hb2 : ("screenshot" == k) = false := by
        simp only [beq_eq_false_iff_ne, ne_eq]
        exact fun he => hk he.symm
      simpa [stripScreenshot, List.filter_cons, hb, List.lookup, hb2] using ih

lemma stripScreenshot_lookup_ne (item : Item) (k : String)
    (hk : k ≠ "screenshot") :
    (stripScreenshot item).lookup k = item.lookup k := by
  induction item with
  | nil => rfl
  | cons kv rest ih =>
    obtain ⟨k', v⟩ := kv
    by_cases hks : k' = "screenshot"
    · have hb : (k == "screenshot") = false := by
        simpa using hk
      simpa [stripScreenshot, List.filter_cons, hks, List.lookup, hb] using ih
    · have hb : (k' == "screenshot") = false := by
        simpa using hks
      by_cases hkk : k = k'
      · simp [stripScreenshot, List.filter_cons, hb, List.lookup, hkk]
      · have hb2 : (k == k') = false := by
          simpa using hkk
        simpa [stripScreenshot, List.filter_cons, hb, List.lookup, hb2] using ih

/-- Every item inside any batch built over the stripped copies is itself a
stripped copy, hence screenshot-free. -/
lemma mem_batches_screenshot_free (sz : Item → Nat)
    (maxItems maxChars : Nat) (items : List Item) (b : List Item)
    (hb : b ∈ BaseChain.create_batched_items sz maxItems maxChars
      (items.map stripScreenshot))
    (x : Item) (hx : x ∈ b) : x.lookup "screenshot" = none := by
  have hflat : x ∈ (BaseChain.create_batched_items sz maxItems maxChars
      (items.map stripScreenshot)).flatten :=
    List.mem_flatten.mpr ⟨b, hb, hx⟩
  rw [BaseChain.create_batched_items_join] at hflat
  have hmap : x ∈ items.map stripScreenshot := List.mem_of_mem_filter hflat
  obtain ⟨y, _, hy⟩ := List.mem_map.mp hmap
  rw [← hy]
  exact stripScreenshot_lookup_self y

end FailureChain

/-- A decoded JSON object carrying every `FailureAnalysisResult` field with
its required type; the concrete valid element used by witnesses. -/
def sampleObj : OutputParser.JValue :=
  OutputParser.JValue.obj
    [("detailed_reason", OutputParser.JValue.str "timeout in checkout"),
     ("error_message", OutputParser.JValue.str "TimeoutError"),
     ("squad_name", OutputParser.JValue.str "payments"),
     ("possible_causes",
       OutputParser.JValue.arr [OutputParser.JValue.str "slow env"]),
     ("recommended_fixes",
       OutputParser.JValue.arr [OutputParser.JValue.str "retry"]),
     ("feature_name", OutputParser.JValue.str "checkout"),
     ("scenario_name", OutputParser.JValue.str "pay"),
     ("step_details", OutputParser.JValue.str "click pay"),
     ("file_path", OutputParser.JValue.str "features/checkout.feature"),
     ("line_number", OutputParser.JValue.str "42")]

/-- Claim C1, counterexample: a decoded 5-element list whose last element is
invalid (JSON `null`) does not yield 4 results plus one `ParseError`;
`parse_result` validates the list in a single comprehension, the
`pydantic.ValidationError` of the bad element is not the imported
`jsonschema.ValidationError` and escapes the call, yielding zero results. -/
theorem c1_single_invalid_element_counterexample :
    OutputParser.parse_result_decoded
      (OutputParser.JValue.arr
        [sampleObj, sampleObj, sampleObj, sampleObj, OutputParser.JValue.null]) =
      OutputParser.ParseOutcome.uncaughtValidation := by
  rfl

/-- Claim C1, amended: if any element of a decoded JSON list fails
`AnalysisResult` schema validation, `parse_result` raises an uncaught
validation error for the whole decode and yields zero results; valid sibling
elements are not preserved. -/
theorem c1_list_validation_not_isolated (xs : List OutputParser.JValue)
    (x : OutputParser.JValue) (hx : x ∈ xs)
    (hv : OutputParser.model_validate x = none) :
    OutputParser.parse_result_decoded (OutputParser.JValue.arr xs) =
      OutputParser.ParseOutcome.uncaughtValidation := by
  simp [OutputParser.parse_result_decoded,
    OutputParser.validate_list_eq_none_of_mem hx hv]

/-- Witness for the amended C1 at a concrete 2-element list. -/
theorem c1_list_validation_not_isolated_witness :
    OutputParser.parse_result_decoded
      (OutputParser.JValue.arr [sampleObj, OutputParser.JValue.null]) =
      OutputParser.ParseOutcome.uncaughtValidation :=
  c1_list_validation_not_isolated [sampleObj, OutputParser.JValue.null]
    OutputParser.JValue.null (by simp) rfl

/-- Claim C6: on a decoded single JSON object that conforms to the
`AnalysisResult` schema, `parse_result` does NOT return the validated record
wrapped in a one-element list: line 54 validates it, but line 55 returns the
undefined name `alidated_item`, so the call raises `NameError` — evaluated
here at a fully valid concrete object. -/
theorem c6_single_object_name_error :
    OutputParser.parse_result_decoded sampleObj =
      OutputParser.ParseOutcome.uncaughtName := by
  rfl

/-- Claim C2: for every input sequence and every pair of positive limits, the
number of items across all emitted batches plus the number of dropped items
equals the length of the input — no item is silently lost by the batching
loop. -/
theorem c2_batcher_completeness {α : Type} (sz : α → Nat)
    (maxItems maxChars : Nat) (hI : 0 < maxItems) (hC : 0 < maxChars)
    (items : List α) :
    ((BaseChain.create_batched_items sz maxItems maxChars items).map
        List.length).sum +
      (BaseChain.createBatchedState sz maxItems maxChars
        items).dropped.length = items.length := by
  have hpart := List.length_eq_length_filter_add
    (l := items) (fun i => decide (sz i ≤ maxChars))
  have hcongr : items.filter
      (fun x => !(fun i => decide (sz i ≤ maxChars)) x) =
      items.filter (fun i => decide (maxChars < sz i)) := by
    apply List.filter_congr
    intro a _
    by_cases h : sz a ≤ maxChars
    · simp [h, Nat.not_lt_of_le h]
    · simp [h, Nat.lt_of_not_le h]
  rw [← List.length_flatten, BaseChain.create_batched_items_join,
    BaseChain.createBatchedState_dropped, ← hcongr, ← hpart]

/-- Witness for C2 at concrete limits and items (sizes 3, 4, 5 and an
oversized 11 under budgets maxItems = 2, maxChars = 10). -/
theorem c2_batcher_completeness_witness :
    ((BaseChain.create_batched_items id 2 10 [3, 4, 5, 11]).map
        List.length).sum +
      (BaseChain.createBatchedState id 2 10 [3, 4, 5, 11]).dropped.length =
      [3, 4, 5, 11].length :=
  c2_batcher_completeness id 2 10 (by decide) (by decide) [3, 4, 5, 11]

/-- Claim C3: for every input sequence and positive limits, every emitted
batch is non-empty, holds at most `maxItems` items and has total serialized
size at most `maxChars`. -/
theorem c3_batch_invariants {α : Type} (sz : α → Nat)
    (maxItems maxChars : Nat) (hI : 0 < maxItems) (hC : 0 < maxChars)
    (items : List α) (b : List α)
    (hb : b ∈ BaseChain.create_batched_items sz maxItems maxChars items) :
    b ≠ [] ∧ b.length ≤ maxItems ∧ (b.map sz).sum ≤ maxChars :=
  BaseChain.create_batched_items_good sz maxItems maxChars hI items b hb

/-- Witness for C3 at the batch `[3, 4]` emitted for the concrete input of
the C2 witness. -/
theorem c3_batch_invariants_witness :
    ([3, 4] : List Nat) ≠ [] ∧ ([3, 4] : List Nat).length ≤ 2 ∧
      (([3, 4] : List Nat).map id).sum ≤ 10 :=
  c3_batch_invariants id 2 10 (by decide) (by decide) [3, 4, 5, 11] [3, 4]
    (by decide)

/-- Claim C5, counterexample: the dropped sequence is NOT returned to the
caller alongside the batches — `_create_batched_items` returns the same
value for `[3, 11]` (11 oversized, dropped) as for `[3]` alone, so the
caller cannot recover the dropped items from the result. -/
theorem c5_dropped_not_returned_counterexample :
    BaseChain.create_batched_items id 5 10 [3, 11] =
      BaseChain.create_batched_items id 5 10 [3] := by
  rfl

/-- Claim C5, amended: an item whose serialized size alone exceeds
`maxCharsPerRequest` never appears in any emitted batch and appears in the
internal `dropped_items` list exactly as often as in the input; but that
list is only logged — the function returns the batches alone. -/
theorem c5_oversized_dropped {α : Type} [DecidableEq α] (sz : α → Nat)
    (maxItems maxChars : Nat) (items : List α) (x : α)
    (hx : maxChars < sz x) :
    (∀ b ∈ BaseChain.create_batched_items sz maxItems maxChars items,
      x ∉ b) ∧
    (BaseChain.createBatchedState sz maxItems maxChars
      items).dropped.count x = items.count x := by
  constructor
  · intro b hb hxb
    have hflat : x ∈ (BaseChain.create_batched_items sz maxItems maxChars
        items).flatten := List.mem_flatten.mpr ⟨b, hb, hxb⟩
    rw [BaseChain.create_batched_items_join] at hflat
    have := List.of_mem_filter hflat
    simp at this
    omega
  · rw [BaseChain.createBatchedState_dropped]
    exact List.count_filter (by simpa using hx)

/-- Witness for the amended C5: the oversized item 11 under budget 10. -/
theorem c5_oversized_dropped_witness :
    (∀ b ∈ BaseChain.create_batched_items id 5 10 [3, 11], 11 ∉ b) ∧
    (BaseChain.createBatchedState id 5 10 [3, 11]).dropped.count 11 =
      [3, 11].count 11 :=
  c5_oversized_dropped id 5 10 [3, 11] 11 (by decide)

/-- Claim C4, counterexample: in per-item mode the claim fails for inputs
needing more than one concurrency group — with `batch_size = 1` and two
items, the run raises `AttributeError` (the `self.delay_between_batches_s`
lookup of line 52) before any output is produced, so no output sequence
preserving the input ordering exists. -/
theorem c4_per_item_multi_group_counterexample :
    BaseChain.process_batch (fun n : Nat => n * 2) { batch_size := 1 }
      (fun _ => [0]) [1, 2] =
      Except.error BaseChain.PyExc.attributeError := by
  simp [BaseChain.process_batch, BaseChain.chunks, BaseChain.processGroups,
    BaseChain.delayBetweenBatchesS]

/-- Claim C4, amended: the output sequence preserves the input ordering of
items and batches, for every completion order of the concurrent workers,
whenever the run completes — in per-item mode for inputs fitting in a single
concurrency group (larger inputs raise `AttributeError`, see C9), and in
per-batch mode for every input, with each batch's results flattened in batch
order. -/
theorem c4_ordering_amended :
    (∀ (α β : Type) (f : α → β) (cfg : BaseChain.ChainConfig)
        (orders : Nat → List Nat) (items : List α),
      items.length ≤ cfg.batch_size →
      (orders 0).Perm (List.range items.length) →
      BaseChain.process_batch f cfg orders items =
        Except.ok (items.map f)) ∧
    (∀ (α β : Type) (g : List α → List β) (cfg : BaseChain.ChainConfig)
        (sz : α → Nat) (orders : Nat → List Nat) (items : List α)
        (maxChars : Nat),
      1 ≤ cfg.batch_size →
      (∀ j, ∀ hj : j < (BaseChain.chunks cfg.batch_size
          (BaseChain.create_batched_items sz cfg.max_items_per_request
            maxChars items)).length,
        (orders j).Perm (List.range ((BaseChain.chunks cfg.batch_size
          (BaseChain.create_batched_items sz cfg.max_items_per_request
            maxChars items)).get ⟨j, hj⟩).length)) →
      (BaseChain.process_batched_items g cfg sz orders items maxChars).1 =
        ((BaseChain.create_batched_items sz cfg.max_items_per_request
          maxChars items).map g).flatten) := by
  constructor
  · intro α β f cfg orders items hlen hperm
    unfold BaseChain.process_batch
    by_cases hnil : items = []
    · subst hnil
      simp [BaseChain.chunks, BaseChain.processGroups]
    · have h1 : 1 ≤ cfg.batch_size := by
        have := List.length_pos.mpr hnil
        omega
      rw [BaseChain.chunks_of_length_le _ h1 _ hnil hlen]
      simp only [BaseChain.processGroups]
      rw [BaseChain.poolMap_perm f items (orders 0) hperm]
  · intro α β g cfg sz orders items maxChars hb hperm
    unfold BaseChain.process_batched_items
    rw [BaseChain.processTokenGroups_results g cfg.delay_between_batches
      orders 0 _ (by intro j hj; simpa using hperm j hj)]
    rw [BaseChain.chunks_flatten _ hb]

/-- Witness for the amended C4: a reversed completion order `[2, 0, 1]`
still yields the results in input order in per-item mode. -/
theorem c4_ordering_amended_witness :
    BaseChain.process_batch (fun n : Nat => n * 2)
      { } (fun _ => [2, 0, 1]) [1, 2, 3] =
      Except.ok ([1, 2, 3].map (fun n => n * 2)) :=
  c4_ordering_amended.1 Nat Nat (fun n => n * 2) { } (fun _ => [2, 0, 1])
    [1, 2, 3] (by decide) (by decide)

/-- Claim C9: the inter-group delay never happens. In per-item mode the
guard at line 52 reads the nonexistent attribute `delay_between_batches_s`
and a multi-group run raises `AttributeError`; in per-batch mode the guard
at line 85 reads `getattr(self, "delay_between_batches_s", 0)`, which is
always 0, so a two-group run performs no sleep at all even though
`delay_between_batches` is configured. Both halves evaluate the code at a
concrete two-group input. -/
theorem c9_inter_group_delay_eval :
    BaseChain.process_batch (fun n : Nat => n) { batch_size := 1 }
        (fun _ => [0]) [1, 2] =
      Except.error BaseChain.PyExc.attributeError ∧
    (BaseChain.process_batched_items (fun b : List Nat => b)
        { batch_size := 1, max_items_per_request := 1 } (fun _ => 1)
        (fun _ => [0]) [1, 2] 10).2 = [] := by
  constructor
  · simp [BaseChain.process_batch, BaseChain.chunks, BaseChain.processGroups,
      BaseChain.delayBetweenBatchesS]
  · unfold BaseChain.process_batched_items
    exact BaseChain.processTokenGroups_sleeps _ _ _ 0 _

/-- Claim C7: with 3 attempts, an HTTP 429 on the first attempt followed by
a success on the second yields the success result and exactly one backoff
sleep, of duration base^attempt = 30^0 for the 0-indexed first attempt. -/
theorem c7_rate_limit_then_success
    (responses : Nat → CustomModelLLM.AttemptOutcome) (t : String)
    (h0 : responses 0 = CustomModelLLM.AttemptOutcome.http 429)
    (h1 : responses 1 = CustomModelLLM.AttemptOutcome.success t) :
    CustomModelLLM.process_prompt responses 3 =
      (CustomModelLLM.PromptResult.ok t, [30 ^ 0]) := by
  unfold CustomModelLLM.process_prompt
  rw [CustomModelLLM.processPromptAux, dif_neg (by omega), h0]
  have h1' : responses (0 + 1) = CustomModelLLM.AttemptOutcome.success t := h1
  norm_num
  rw [CustomModelLLM.processPromptAux, dif_neg (by omega), h1']

/-- Witness for C7 at a concrete response schedule. -/
theorem c7_rate_limit_then_success_witness :
    CustomModelLLM.process_prompt
      (fun a => if a = 0 then CustomModelLLM.AttemptOutcome.http 429
        else CustomModelLLM.AttemptOutcome.success "ok") 3 =
      (CustomModelLLM.PromptResult.ok "ok", [30 ^ 0]) :=
  c7_rate_limit_then_success _ "ok" rfl rfl

/-- Claim C8: when every attempt of every prompt fails with a transport
error, each call is retried up to `maxRetries` attempts (sleeping 1 second
after each non-final one) and the exhaustion surfaces as the per-call
error-marker generation; `_generate` returns one generation per prompt and
no exception escapes it. -/
theorem c8_transport_exhaustion
    (env : String → Nat → CustomModelLLM.AttemptOutcome)
    (maxRetries : Nat) (prompts : List String) (hm : 0 < maxRetries)
    (h : ∀ p a, env p a = CustomModelLLM.AttemptOutcome.transport) :
    CustomModelLLM.generate env maxRetries prompts =
      prompts.map (fun _ => CustomModelLLM.Gen.errMarker
        CustomModelLLM.PromptResult.transportError) ∧
    ∀ p : String, CustomModelLLM.process_prompt (env p) maxRetries =
      (CustomModelLLM.PromptResult.transportError,
        List.replicate (maxRetries - 1) 1) := by
  have hpp : ∀ p : String,
      CustomModelLLM.process_prompt (env p) maxRetries =
        (CustomModelLLM.PromptResult.transportError,
          List.replicate (maxRetries - 1) 1) := by
    intro p
    have := CustomModelLLM.processPromptAux_transport (env p) maxRetries
      (h p) 0 [] hm
    simpa [CustomModelLLM.process_prompt] using this
  refine ⟨?_, hpp⟩
  unfold CustomModelLLM.generate
  apply List.map_congr_left
  intro p _
  unfold CustomModelLLM.generateOne
  rw [hpp p]

/-- Witness for C8: two prompts, two attempts each, all transport errors. -/
theorem c8_transport_exhaustion_witness :
    CustomModelLLM.generate
      (fun _ _ => CustomModelLLM.AttemptOutcome.transport) 2 ["a", "b"] =
      ["a", "b"].map (fun _ => CustomModelLLM.Gen.errMarker
        CustomModelLLM.PromptResult.transportError) ∧
    ∀ p : String, CustomModelLLM.process_prompt
      ((fun (_ : String) (_ : Nat) =>
        CustomModelLLM.AttemptOutcome.transport) p) 2 =
      (CustomModelLLM.PromptResult.transportError,
        List.replicate (2 - 1) 1) :=
  c8_transport_exhaustion
    (fun _ _ => CustomModelLLM.AttemptOutcome.transport) 2 ["a", "b"]
    (by decide) (fun _ _ => rfl)

/-- Claim C10: screenshot stripping produces a fresh mapping — the stripped
copy has no screenshot while every other key keeps its original value, and
the caller's item is untouched (the embedding is pure and the comprehension
builds a new dict); in bulk multi-item mode the batcher runs on the stripped
copies, so every item of every emitted batch and every item forwarded in the
multi-item payload is screenshot-free, and each item's serialized size is
counted after stripping. -/
theorem c10_screenshot_stripping (item : FailureChain.Item) (k : String)
    (hk : k ≠ "screenshot") (sz : FailureChain.Item → Nat)
    (maxItems maxChars : Nat) (items : List FailureChain.Item)
    (g : List FailureChain.Item → List FailureChain.Item)
    (cfg : BaseChain.ChainConfig) (orders : Nat → List Nat) (mc : Nat) :
    (FailureChain.stripScreenshot item).lookup "screenshot" = none ∧
    (FailureChain.stripScreenshot item).lookup k = item.lookup k ∧
    (∀ b ∈ BaseChain.create_batched_items sz maxItems maxChars
        (items.map FailureChain.stripScreenshot), ∀ x ∈ b,
      x.lookup "screenshot" = none) ∧
    (∀ x ∈ FailureChain.prepare_llm_input_api items,
      x.lookup "screenshot" = none) ∧
    FailureChain.process_batched_items g cfg sz orders items mc =
      BaseChain.process_batched_items g cfg sz orders
        (items.map FailureChain.stripScreenshot) mc := by
  refine ⟨FailureChain.stripScreenshot_lookup_self item,
    FailureChain.stripScreenshot_lookup_ne item k hk, ?_, ?_, rfl⟩
  · intro b hb x hx
    exact FailureChain.mem_batches_screenshot_free sz maxItems maxChars
      items b hb x hx
  · intro x hx
    obtain ⟨y, _, hy⟩ := List.mem_map.mp hx
    rw [← hy]
    exact FailureChain.stripScreenshot_lookup_self y

/-- Witness for C10 at a concrete item carrying a screenshot. -/
theorem c10_screenshot_stripping_witness :
    (FailureChain.stripScreenshot
      [("screenshot", "xyz"), ("a", "1")]).lookup "screenshot" = none ∧
    (FailureChain.stripScreenshot
      [("screenshot", "xyz"), ("a", "1")]).lookup "a" =
      ([("screenshot", "xyz"), ("a", "1")] : FailureChain.Item).lookup "a" ∧
    (∀ b ∈ BaseChain.create_batched_items (fun _ => 1) 5 10
        ([[("screenshot", "xyz"), ("a", "1")]].map
          FailureChain.stripScreenshot), ∀ x ∈ b,
      x.lookup "screenshot" = none) ∧
    (∀ x ∈ FailureChain.prepare_llm_input_api
      [[("screenshot", "xyz"), ("a", "1")]],
      x.lookup "screenshot" = none) ∧
    FailureChain.process_batched_items (fun b => b) { } (fun _ => 1)
      (fun _ => [0]) [[("screenshot", "xyz"), ("a", "1")]] 10 =
      BaseChain.process_batched_items (fun b => b) { } (fun _ => 1)
        (fun _ => [0])
        ([[("screenshot", "xyz"), ("a", "1")]].map
          FailureChain.stripScreenshot) 10 :=
  c10_screenshot_stripping [("screenshot", "xyz"), ("a", "1")] "a"
    (by decide) (fun _ => 1) 5 10 [[("screenshot", "xyz"), ("a", "1")]]
    (fun b => b) { } (fun _ => [0]) 10
